import Mathlib

/-!
Verification of `abhayjohn/pdf_compress` (src/app.py) against its
natural-language specification.

The app is a Streamlit PDF compressor.  Its core is `fast_compress`
(src/app.py lines 23-53): for each page of the input PDF it renders the page
to an RGB pixmap at `zoom = dpi / 72`, encodes it as JPEG at the given
quality, creates a fresh output page of the original width/height holding
only that image, and finally saves the assembled output document to a
temporary path.

The PyMuPDF (fitz) rendering/encoding library is an external collaborator;
we embed it as an abstract `Codec` record (render / encode / parse) plus a
concrete model of `Document.save`.  Page geometry uses ℚ (PyMuPDF rects are
real-valued); byte streams are `List ℕ`.
-/

/-- Color space passed to `Page.get_pixmap`.  src/app.py line 37 always
passes `fitz.csRGB`; Grayscale exists only as a spec-level option. -/
inductive ColorMode
  | RGB
  | Grayscale
deriving DecidableEq, Repr

/-- An input PDF page: width/height of `page.rect` in device-independent
units, plus an opaque identifier for its (vector/text/image) content. -/
structure Page where
  width : ℚ
  height : ℚ
  content : ℕ
deriving DecidableEq, Repr

/-- A document is its ordered sequence of pages (fitz `doc` iteration,
src/app.py line 31). -/
abbrev Document := List Page

/-- A page of the output document built by `fast_compress`: a fresh page of
the recorded width/height whose sole content is one encoded image
(src/app.py lines 41-42).  The record also keeps the rendering dpi, the
colorspace and the JPEG quality that produced the image, read off from the
call sites at lines 33-38. -/
structure OutPage where
  width : ℚ
  height : ℚ
  image : List ℕ
  renderDpi : ℕ
  renderMode : ColorMode
  encodeQuality : ℕ
deriving DecidableEq, Repr

/-- Abstract model of the external PyMuPDF collaborator: `render` maps a
page's content and pixmap dimensions (in pixels) and a colorspace to an
opaque raster identifier (`page.get_pixmap`), `encode` maps a raster and a
JPEG quality to an encoded byte stream (`pix.tobytes("jpg", ...)`), and
`parse` reads the bytes of a PDF file into a `Document` (`fitz.open`),
failing on broken input. -/
structure Codec where
  render : ℕ → ℕ → ℕ → ColorMode → ℕ
  encode : ℕ → ℕ → List ℕ
  parse : List ℕ → Option Document

/-- Pixel extent of one axis of the pixmap produced by
`page.get_pixmap(matrix=fitz.Matrix(zoom, zoom))` with `zoom = dpi / 72`
(src/app.py lines 33-37): MuPDF transforms the page rectangle by the matrix
and rounds it outward to an integer pixel box. -/
def pixDim (x : ℚ) (dpi : ℕ) : ℕ :=
  (⌈x * dpi / 72⌉ : ℤ).toNat

/-- One iteration of the page loop of `fast_compress`
(src/app.py lines 31-45): render the page at the dpi-derived zoom in RGB,
JPEG-encode at `quality`, and build a new output page of the original
dimensions containing just that image. -/
def compressPage (c : Codec) (dpi quality : ℕ) (p : Page) : OutPage :=
  { width := p.width
    height := p.height
    image := c.encode (c.render p.content (pixDim p.width dpi) (pixDim p.height dpi) ColorMode.RGB) quality
    renderDpi := dpi
    renderMode := ColorMode.RGB
    encodeQuality := quality }

/-- The output document `out_doc` assembled by the page loop of
`fast_compress` (src/app.py lines 29-45). -/
def compressedPages (c : Codec) (d : Document) (dpi quality : ℕ) : List OutPage :=
  d.map (compressPage c dpi quality)

/-- Byte encoding of one output page inside the saved PDF: a fixed-size
header (page geometry and image length) followed by the image bytes.  The
model keeps the save format simple but injective per page. -/
def serializePage (op : OutPage) : List ℕ :=
  [op.width.num.natAbs, op.width.den, op.height.num.natAbs, op.height.den, op.image.length] ++ op.image

/-- Byte encoding of the whole saved output document. -/
def serialize (ps : List OutPage) : List ℕ :=
  ps.length :: (ps.map serializePage).flatten

/-- Model of PyMuPDF `Document.save` (src/app.py line 49): PyMuPDF refuses
to save a document without pages, raising
`ValueError: cannot save with zero pages`; otherwise it writes the
serialized document. -/
def saveDoc (ps : List OutPage) : Except String (List ℕ) :=
  if ps.isEmpty then .error "cannot save with zero pages"
  else .ok (serialize ps)

/-- `fast_compress` (src/app.py lines 23-53) at the document level: the
bytes written to the output temp file, or the error raised.  The input
document is never written to. -/
def fast_compress (c : Codec) (d : Document) (dpi quality : ℕ) : Except String (List ℕ) :=
  saveDoc (compressedPages c d dpi quality)

/-- Byte size of the saved output for a given parameter set (the quantity
the size-vs-parameter claims speak about). -/
def savedSize (c : Codec) (d : Document) (dpi quality : ℕ) : ℕ :=
  (serialize (compressedPages c d dpi quality)).length

/-- A concrete instantiation of the abstract collaborator, used to evaluate
the model on explicit inputs: rasters grow additively with pixel
dimensions, encoded streams have one byte per raster unit plus a quality
marker, and any nonempty byte stream parses to a one-page document. -/
def testCodec : Codec :=
  { render := fun content pw ph _ => content + pw + ph
    encode := fun raster q => List.replicate raster 0 ++ [q]
    parse := fun b => if b.isEmpty then none else some [{ width := 4, height := 3, content := b.length }] }

/-- A concrete two-page document (pages of distinct geometry). -/
def testDoc : Document :=
  [{ width := 4, height := 3, content := 7 }, { width := 6, height := 5, content := 2 }]

/-- Modelled from the spec: the caller-facing configuration (§6) recognizes
`colorMode : RGB|Grayscale` among its options.  In src/app.py the UI maps
each mode of `settings_map` (lines 74-78) to `{dpi, quality}` only, and
`fast_compress` hardcodes `fitz.csRGB` (line 37); `colorMode` appears
nowhere in the code. -/
structure Config where
  dpi : ℕ
  quality : ℕ
  colorMode : ColorMode

/-- The app invoked with a caller configuration (src/app.py lines 109-113):
only `dpi` and `quality` reach `fast_compress`; the configured colorMode is
ignored because the code has no parameter for it. -/
def runWithConfig (c : Codec) (cfg : Config) (d : Document) : List OutPage :=
  compressedPages c d cfg.dpi cfg.quality

/-- A file system: an association of paths to byte contents.  Later entries
are shadowed by earlier ones. -/
abbrev FS := List (String × List ℕ)

/-- Contents of the file at a path, if present. -/
def lookupFS : FS → String → Option (List ℕ)
  | [], _ => none
  | (p, b) :: rest, q => if p = q then some b else lookupFS rest q

/-- `fast_compress` at the file level (src/app.py lines 23-53): open the
PDF at `inPath` (`fitz.open`, failing on a missing or broken file), run the
page loop, and save the result to the fresh temp path `outPath`
(`tempfile.mktemp` + `out_doc.save`).  The only write is the new output
file. -/
def fast_compressFile (c : Codec) (fs : FS) (inPath outPath : String) (dpi quality : ℕ) :
    Except String FS :=
  match lookupFS fs inPath with
  | none => .error "no such file"
  | some bytes =>
    match c.parse bytes with
    | none => .error "cannot open broken document"
    | some d => (fast_compress c d dpi quality).map (fun outBytes => (outPath, outBytes) :: fs)

/-- Where, if anywhere, an injected failure strikes while the per-file
handler (src/app.py lines 98-143) processes one upload. -/
inductive FailPoint
  /-- every step succeeds -/
  | noFail
  /-- `fitz.open(input_path)` raises (corrupt input); no output file was
  created yet -/
  | openFail
  /-- `out_doc.save(out_path, ...)` raises after creating the output file
  (e.g. the disk fills mid-write); `fast_compress` never returns, so the
  caller's `comp_path` stays `None` -/
  | saveFail
  /-- reading `comp_path` back (line 116) raises; `comp_path` is assigned -/
  | readFail
deriving DecidableEq, Repr

/-- Value of the caller's `comp_path` variable when the `finally` block
runs: it is assigned only if `fast_compress` returned (src/app.py lines
106-113). -/
def compPathVar (fp : FailPoint) (outPath : String) : Option String :=
  match fp with
  | .noFail => some outPath
  | .openFail => none
  | .saveFail => none
  | .readFail => some outPath

/-- Temp files created on disk by the time the `finally` block runs: the
staged input `f_in` always exists (lines 102-104); the output file exists
unless the failure struck before `out_doc.save` created it. -/
def tempFilesOnDisk (fp : FailPoint) (fInPath outPath : String) : List String :=
  match fp with
  | .openFail => [fInPath]
  | _ => [fInPath, outPath]

/-- Temp files still on disk after the `finally` cleanup (src/app.py lines
136-141): it removes `f_in_path` if it exists and `comp_path` if that
variable was assigned and the file exists.  The surrounding `except`
swallows the error either way. -/
def tempFilesAfter (fp : FailPoint) (fInPath outPath : String) : List String :=
  (tempFilesOnDisk fp fInPath outPath).filter
    (fun p => ¬ (p = fInPath ∨ compPathVar fp outPath = some p))

/-- State of the Streamlit server: which sessions are currently inside
`with st.session_state.process_lock` (src/app.py lines 90-91), i.e. running
a compression task.  Line 13-14 creates the lock in `st.session_state`,
which Streamlit keeps per browser session, so each session owns a distinct
`threading.Lock`. -/
structure AppState where
  holders : List ℕ
deriving DecidableEq, Repr

/-- One step of the server: a session acquires its own per-session lock
(possible whenever that session's lock is free, regardless of other
sessions, since the locks are distinct objects) or releases it. -/
inductive LockStep : AppState → AppState → Prop
  | acquire (s : ℕ) (st : AppState) (h : s ∉ st.holders) :
      LockStep st ⟨s :: st.holders⟩
  | release (s : ℕ) (st : AppState) (h : s ∈ st.holders) :
      LockStep st ⟨st.holders.erase s⟩

/-- States reachable from the idle server. -/
def LockReachable : AppState → Prop :=
  Relation.ReflTransGen LockStep ⟨[]⟩

/-- Terminal outcome of the Convergence Controller (spec §4.3). -/
inductive Outcome
  | Converged
  | Exhausted
deriving DecidableEq, Repr

/-- What one Controller invocation did: its outcome, the parameters of its
final full pass, and how many sample and full passes it ran. -/
structure CtrlResult where
  outcome : Outcome
  finalResolution : ℕ
  samplePasses : ℕ
  fullPasses : ℕ
deriving DecidableEq, Repr

/-- Modelled from the spec: the Convergence Controller of §4.3 is absent
from src/ (the app runs a single fixed-parameter pass per file), so its
state machine is modelled from the spec's words.  `proj` is one Sampler
invocation (one sample pass) at a resolution, `update` the parameter-update
rule, `band` the acceptance band; the ℕ argument is the remaining attempt
budget and the last argument counts sample passes so far.  Within band →
Converged after one confirming full pass; budget exhausted → Exhausted
after one final full pass. -/
def controllerAux (proj : ℕ → ℚ) (update : ℕ → ℚ → ℕ) (band : ℚ × ℚ) (r : ℕ) :
    ℕ → ℕ → CtrlResult
  | 0, samples =>
    { outcome := .Exhausted, finalResolution := r, samplePasses := samples, fullPasses := 1 }
  | budget + 1, samples =>
    let s := proj r
    if band.1 ≤ s ∧ s ≤ band.2 then
      { outcome := .Converged, finalResolution := r, samplePasses := samples + 1, fullPasses := 1 }
    else
      controllerAux proj update band (update r s) budget (samples + 1)

/-- Modelled from the spec: a full Controller invocation with starting
resolution `r0` and attempt budget `maxAttempts`. -/
def controller (proj : ℕ → ℚ) (update : ℕ → ℚ → ℕ) (band : ℚ × ℚ)
    (r0 maxAttempts : ℕ) : CtrlResult :=
  controllerAux proj update band r0 maxAttempts 0

/-- Modelled from the spec: the Size Projection Sampler (§4.2) is absent
from src/; per the spec it selects the first `sampleCount` pages. -/
def samplePages (d : Document) (sampleCount : ℕ) : Document :=
  d.take sampleCount

/-- Modelled from the spec: `project(document, params, sampleCount)` runs
the Recompression Pipeline on the selected sample and extrapolates
`sampleDocumentSize / sampleCount * totalPageCount`. -/
def project (c : Codec) (d : Document) (dpi quality sampleCount : ℕ) :
    Except String ℚ :=
  (fast_compress c (samplePages d sampleCount) dpi quality).map
    (fun bytes => (bytes.length : ℚ) / sampleCount * d.length)

/-- The black-box codec contract the size-monotonicity property rests on:
encoding a raster rendered at larger pixel dimensions (same content, same
colorspace, same quality) never yields fewer bytes. -/
def MonotoneCodec (c : Codec) : Prop :=
  ∀ content q m w1 h1 w2 h2, w1 ≤ w2 → h1 ≤ h2 →
    (c.encode (c.render content w1 h1 m) q).length ≤
      (c.encode (c.render content w2 h2 m) q).length

/-- C1: for every input document and every parameter set, the output
document assembled by `fast_compress` has exactly the same page count as
the input, and each output page carries exactly the width and height of
the corresponding input page (src/app.py line 41 copies
`page.rect.width`/`page.rect.height` into `out_doc.new_page`). -/
theorem fast_compress_preserves_geometry (c : Codec) (d : Document) (dpi quality : ℕ) :
    (compressedPages c d dpi quality).length = d.length ∧
    (compressedPages c d dpi quality).map OutPage.width = d.map Page.width ∧
    (compressedPages c d dpi quality).map OutPage.height = d.map Page.height := by
  refine ⟨by simp [compressedPages], ?_, ?_⟩ <;>
    simp [compressedPages, List.map_map, Function.comp, compressPage]

/-- Helper: every field of `controllerAux`'s result other than the pass
counters; the sample-pass counter grows by at most the remaining budget and
exactly one full pass is ever run. -/
theorem controllerAux_bounds (proj : ℕ → ℚ) (update : ℕ → ℚ → ℕ) (band : ℚ × ℚ) :
    ∀ (budget : ℕ) (r samples : ℕ),
      (controllerAux proj update band r budget samples).samplePasses ≤ samples + budget ∧
      (controllerAux proj update band r budget samples).fullPasses = 1 := by
  intro budget
  induction budget with
  | zero => intro r samples; simp [controllerAux]
  | succ n ih =>
    intro r samples
    rw [controllerAux]
    by_cases h : band.1 ≤ proj r ∧ proj r ≤ band.2
    · simp [h]
    · simp [h]
      refine ⟨le_trans (ih (update r (proj r)) (samples + 1)).1 (by omega), (ih _ _).2⟩

/-- C2: for every projector, update rule, acceptance band, starting
resolution and attempt budget, the Convergence Controller terminates with
an outcome that is either Converged or Exhausted, and the total number of
sample passes plus full passes it ran is at most `maxAttempts + 1`. -/
theorem controller_terminates (proj : ℕ → ℚ) (update : ℕ → ℚ → ℕ) (band : ℚ × ℚ)
    (r0 maxAttempts : ℕ) :
    ((controller proj update band r0 maxAttempts).outcome = Outcome.Converged ∨
      (controller proj update band r0 maxAttempts).outcome = Outcome.Exhausted) ∧
    (controller proj update band r0 maxAttempts).samplePasses +
      (controller proj update band r0 maxAttempts).fullPasses ≤ maxAttempts + 1 := by
  have hb := controllerAux_bounds proj update band maxAttempts r0 0
  refine ⟨?_, by rw [controller]; omega⟩
  cases h : (controller proj update band r0 maxAttempts).outcome
  · exact Or.inl rfl
  · exact Or.inr rfl

/-- C3 (code bug exhibit): with the lock stored in the per-session
`st.session_state`, a state where two distinct sessions hold "the" lock —
i.e. two compression tasks execute simultaneously — is reachable from the
idle server, refuting system-wide mutual exclusion. -/
theorem session_lock_not_systemwide :
    ∃ st : AppState, LockReachable st ∧ 2 ≤ st.holders.length := by
  refine ⟨⟨[2, 1]⟩, ?_, by simp⟩
  have h1 : LockStep ⟨[]⟩ ⟨[1]⟩ := LockStep.acquire 1 ⟨[]⟩ (by simp)
  have h2 : LockStep ⟨[1]⟩ ⟨[2, 1]⟩ := LockStep.acquire 2 ⟨[1]⟩ (by simp)
  exact Relation.ReflTransGen.tail (Relation.ReflTransGen.tail Relation.ReflTransGen.refl h1) h2

/-- C4 (code bug exhibit): when `out_doc.save` fails after creating the
output temp file, the `finally` block removes only the staged input — the
output file survives, because `comp_path` was never assigned and
`fast_compress` itself has no cleanup handler. -/
theorem save_failure_leaks_temp_file :
    tempFilesAfter FailPoint.saveFail "in.pdf" "out.pdf" = ["out.pdf"] := by
  decide

/-- Helper: exactly when the file-level pipeline succeeds, and what the
resulting file system is: the input file's bytes were found, parsed, the
core pipeline succeeded, and the output bytes were written at the fresh
output path. -/
theorem fast_compressFile_ok_iff (c : Codec) (fs g : FS) (inPath outPath : String)
    (dpi quality : ℕ) :
    fast_compressFile c fs inPath outPath dpi quality = Except.ok g ↔
      ∃ bytes d outBytes,
        lookupFS fs inPath = some bytes ∧ c.parse bytes = some d ∧
        fast_compress c d dpi quality = Except.ok outBytes ∧
        g = (outPath, outBytes) :: fs := by
  constructor
  · intro h
    rw [fast_compressFile] at h
    split at h
    · exact Except.noConfusion h
    · rename_i bytes hbytes
      split at h
      · exact Except.noConfusion h
      · rename_i d hd
        cases ec : fast_compress c d dpi quality with
        | error msg =>
          rw [ec] at h
          simp only [Except.map] at h
          exact Except.noConfusion h
        | ok outBytes =>
          rw [ec] at h
          simp only [Except.map] at h
          cases h
          exact ⟨bytes, d, outBytes, hbytes, hd, ec, rfl⟩
  · rintro ⟨bytes, d, outBytes, hb, hd, ho, rfl⟩
    simp [fast_compressFile, hb, hd, ho, Except.map]

/-- C5: `recompress` is deterministic in its document and parameter inputs:
two invocations reading the same input bytes with the same dpi/quality,
from any two file-system states and to any two temp output paths, write
byte-identical output files. -/
theorem recompress_deterministic (c : Codec) (fs1 fs2 g1 g2 : FS)
    (in1 in2 out1 out2 : String) (dpi quality : ℕ)
    (hin : lookupFS fs1 in1 = lookupFS fs2 in2)
    (h1 : fast_compressFile c fs1 in1 out1 dpi quality = Except.ok g1)
    (h2 : fast_compressFile c fs2 in2 out2 dpi quality = Except.ok g2) :
    lookupFS g1 out1 = lookupFS g2 out2 := by
  obtain ⟨b1, d1, o1, hb1, hd1, ho1, rfl⟩ := (fast_compressFile_ok_iff _ _ _ _ _ _ _).mp h1
  obtain ⟨b2, d2, o2, hb2, hd2, ho2, rfl⟩ := (fast_compressFile_ok_iff _ _ _ _ _ _ _).mp h2
  rw [hb1, hb2] at hin
  cases hin
  rw [hd1] at hd2
  cases hd2
  rw [ho1] at ho2
  cases ho2
  simp [lookupFS]

/-- Witness for C5: two concrete successful runs of the file-level
pipeline, from different file systems and output paths but identical input
bytes, store identical output bytes. -/
theorem recompress_deterministic_witness :
    ∃ g1 g2 : FS,
      fast_compressFile testCodec [("a.pdf", [1])] "a.pdf" "t1.pdf" 75 50 = Except.ok g1 ∧
      fast_compressFile testCodec [("b.pdf", [1]), ("x.bin", [9])] "b.pdf" "t2.pdf" 75 50 = Except.ok g2 ∧
      lookupFS g1 "t1.pdf" = lookupFS g2 "t2.pdf" := by
  refine ⟨_, _, rfl, rfl, ?_⟩
  exact recompress_deterministic testCodec [("a.pdf", [1])] [("b.pdf", [1]), ("x.bin", [9])]
    _ _ "a.pdf" "b.pdf" "t1.pdf" "t2.pdf" 75 50 (by decide) rfl rfl

/-- C9: `recompress` has no side effect outside its own output file: a
successful run leaves every path other than the fresh temp output path —
in particular the input document at `inPath` — with exactly the contents
it had before. -/
theorem recompress_no_side_effects (c : Codec) (fs g : FS) (inPath outPath : String)
    (dpi quality : ℕ)
    (h : fast_compressFile c fs inPath outPath dpi quality = Except.ok g) :
    ∀ p, p ≠ outPath → lookupFS g p = lookupFS fs p := by
  intro p hp
  obtain ⟨b, d, o, hb, hd, ho, rfl⟩ := (fast_compressFile_ok_iff _ _ _ _ _ _ _).mp h
  simp only [lookupFS]
  rw [if_neg (fun he => hp he.symm)]

/-- Witness for C9: a concrete successful run leaves the input file's
bytes untouched. -/
theorem recompress_no_side_effects_witness :
    ∃ g : FS,
      fast_compressFile testCodec [("a.pdf", [1])] "a.pdf" "t1.pdf" 75 50 = Except.ok g ∧
      lookupFS g "a.pdf" = lookupFS [("a.pdf", [1])] "a.pdf" := by
  refine ⟨_, rfl, ?_⟩
  exact recompress_no_side_effects testCodec [("a.pdf", [1])] _ "a.pdf" "t1.pdf" 75 50 rfl
    "a.pdf" (by decide)

/-- C6: the Size Projection Sampler selects exactly the first
min(sampleCount, total pages) pages — the i-th sampled page is the i-th
document page — and, when the sample pass succeeds, returns
`sampleDocumentSize / sampleCount * totalPageCount` as the projected
size. -/
theorem sampler_selects_first_pages_and_projects (c : Codec) (d : Document)
    (dpi quality n : ℕ) :
    (samplePages d n).length = min n d.length ∧
    (∀ i (h : i < (samplePages d n).length) (h' : i < d.length),
      (samplePages d n).get ⟨i, h⟩ = d.get ⟨i, h'⟩) ∧
    ∀ bytes, fast_compress c (samplePages d n) dpi quality = Except.ok bytes →
      project c d dpi quality n = Except.ok ((bytes.length : ℚ) / n * d.length) := by
  refine ⟨by simp [samplePages], ?_, ?_⟩
  · intro i h h'
    simp [samplePages, List.get_eq_getElem, List.getElem_take]
  · intro bytes hb
    rw [project, hb]
    rfl

/-- Witness for C6: on a concrete two-page document with sampleCount 1,
the sampled page is the first page and the projection is the sample size
divided by 1 times 2. -/
theorem sampler_selects_first_pages_witness :
    ∃ (h : 0 < (samplePages testDoc 1).length) (h' : 0 < testDoc.length)
      (bytes : List ℕ),
      (samplePages testDoc 1).get ⟨0, h⟩ = testDoc.get ⟨0, h'⟩ ∧
      fast_compress testCodec (samplePages testDoc 1) 75 50 = Except.ok bytes ∧
      project testCodec testDoc 75 50 1 = Except.ok ((bytes.length : ℚ) / 1 * testDoc.length) := by
  refine ⟨by decide, by decide, _, ?_, rfl, ?_⟩
  · exact (sampler_selects_first_pages_and_projects testCodec testDoc 75 50 1).2.1 0
      (by decide) (by decide)
  · exact (sampler_selects_first_pages_and_projects testCodec testDoc 75 50 1).2.2 _ rfl

/-- C8 (counterexample): the claim that every page is rendered at the
caller-configured colorMode fails — configuring Grayscale still renders in
RGB, because src/app.py line 37 hardcodes `fitz.csRGB` and `fast_compress`
takes no colorMode parameter. -/
theorem colorMode_not_honored :
    ¬ (∀ op ∈ runWithConfig testCodec ⟨75, 50, ColorMode.Grayscale⟩ testDoc,
        op.renderMode = ColorMode.Grayscale) := by
  intro h
  have hm : compressPage testCodec 75 50 { width := 4, height := 3, content := 7 } ∈
      runWithConfig testCodec ⟨75, 50, ColorMode.Grayscale⟩ testDoc := by
    simp [runWithConfig, compressedPages, testDoc]
  have hmode := h _ hm
  simp [compressPage] at hmode

/-- C8 (amended): every page is rendered at the caller-configured
`params.resolution` and encoded at `params.quality`, but at a fixed RGB
colorspace — colorMode is not a recognized option of the code. -/
theorem fast_compress_fixed_rgb_params (c : Codec) (d : Document) (dpi quality : ℕ) :
    ∀ op ∈ compressedPages c d dpi quality,
      op.renderMode = ColorMode.RGB ∧ op.renderDpi = dpi ∧ op.encodeQuality = quality := by
  intro op hop
  simp only [compressedPages, List.mem_map] at hop
  obtain ⟨p, _, rfl⟩ := hop
  exact ⟨rfl, rfl, rfl⟩

/-- Witness for the amended C8: a concrete output page of a concrete run
carries RGB, the configured dpi and the configured quality. -/
theorem fast_compress_fixed_rgb_params_witness :
    (compressPage testCodec 75 50 { width := 4, height := 3, content := 7 }).renderMode
        = ColorMode.RGB ∧
    (compressPage testCodec 75 50 { width := 4, height := 3, content := 7 }).renderDpi = 75 ∧
    (compressPage testCodec 75 50 { width := 4, height := 3, content := 7 }).encodeQuality = 50 :=
  fast_compress_fixed_rgb_params testCodec testDoc 75 50
    (compressPage testCodec 75 50 { width := 4, height := 3, content := 7 })
    (by simp [compressedPages, testDoc])

/-- C10 (counterexample): on a zero-page input, `fast_compress` does not
return an output document at all — the save step raises. -/
theorem zero_page_save_rejected :
    ¬ ∃ bytes, fast_compress testCodec [] 75 50 = Except.ok bytes := by
  rintro ⟨bytes, hb⟩
  exact Except.noConfusion hb

/-- C10 (amended): on a zero-page input the per-page loop runs zero times
(the assembled output has no pages), and `fast_compress` then fails at
`out_doc.save` with PyMuPDF's "cannot save with zero pages" error instead
of returning a zero-page output. -/
theorem fast_compress_zero_pages (c : Codec) (dpi quality : ℕ) :
    compressedPages c [] dpi quality = [] ∧
    fast_compress c [] dpi quality = Except.error "cannot save with zero pages" :=
  ⟨rfl, rfl⟩

/-- Helper: byte length of one serialized output page. -/
theorem serializePage_length (op : OutPage) :
    (serializePage op).length = 5 + op.image.length := by
  simp [serializePage]
  omega

/-- Helper: the saved size of a cons decomposes page by page. -/
theorem savedSize_cons (c : Codec) (p : Page) (rest : Document) (dpi quality : ℕ) :
    savedSize c (p :: rest) dpi quality =
      (serializePage (compressPage c dpi quality p)).length + savedSize c rest dpi quality := by
  simp [savedSize, serialize, compressedPages]
  omega

/-- Helper: pixmap dimensions are monotone in the dpi for nonnegative page
extents. -/
theorem pixDim_mono (x : ℚ) (hx : 0 ≤ x) {r1 r2 : ℕ} (h : r1 ≤ r2) :
    pixDim x r1 ≤ pixDim x r2 := by
  unfold pixDim
  have hcast : (r1 : ℚ) ≤ (r2 : ℚ) := by exact_mod_cast h
  have h2 : x * r1 ≤ x * r2 := mul_le_mul_of_nonneg_left hcast hx
  have h3 : x * r1 / 72 ≤ x * r2 / 72 :=
    (div_le_div_iff_of_pos_right (by norm_num : (0 : ℚ) < 72)).mpr h2
  exact Int.toNat_le_toNat (Int.ceil_mono h3)

/-- Helper: page-by-page induction for C7. -/
theorem fullpage_size_mono_aux (c : Codec) (quality r1 r2 : ℕ)
    (hc : MonotoneCodec c) (hr : r1 ≤ r2) :
    ∀ d : Document, (∀ p ∈ d, 0 ≤ p.width ∧ 0 ≤ p.height) →
      savedSize c d r1 quality ≤ savedSize c d r2 quality := by
  intro d
  induction d with
  | nil => intro _; exact le_refl _
  | cons p rest ih =>
    intro hd
    rw [savedSize_cons, savedSize_cons]
    have hp := hd p (List.mem_cons_self p rest)
    have himg : (compressPage c r1 quality p).image.length ≤
        (compressPage c r2 quality p).image.length := by
      simp only [compressPage]
      exact hc p.content quality ColorMode.RGB _ _ _ _
        (pixDim_mono p.width hp.1 hr) (pixDim_mono p.height hp.2 hr)
    have hlen : (serializePage (compressPage c r1 quality p)).length ≤
        (serializePage (compressPage c r2 quality p)).length := by
      rw [serializePage_length, serializePage_length]
      omega
    exact Nat.add_le_add hlen (ih fun q hq => hd q (List.mem_cons_of_mem p hq))

/-- C7: for the FullPage strategy with quality held fixed, and a codec
satisfying the black-box contract that larger rasters never encode to
fewer bytes, the saved output size is non-decreasing in the resolution:
r1 ≤ r2 implies the size at r1 is at most the size at r2. -/
theorem fullpage_size_monotone_in_resolution (c : Codec) (d : Document)
    (quality r1 r2 : ℕ) (hc : MonotoneCodec c)
    (hd : ∀ p ∈ d, 0 ≤ p.width ∧ 0 ≤ p.height) (hr : r1 ≤ r2) :
    savedSize c d r1 quality ≤ savedSize c d r2 quality :=
  fullpage_size_mono_aux c quality r1 r2 hc hr d hd

/-- Witness for C7: the concrete codec is monotone, the concrete document
has nonnegative page extents, and the saved size at dpi 60 is at most the
saved size at dpi 110. -/
theorem fullpage_size_monotone_witness :
    MonotoneCodec testCodec ∧ (∀ p ∈ testDoc, 0 ≤ p.width ∧ 0 ≤ p.height) ∧
    (60 : ℕ) ≤ 110 ∧
    savedSize testCodec testDoc 60 50 ≤ savedSize testCodec testDoc 110 50 := by
  have hmc : MonotoneCodec testCodec := by
    intro content q m w1 h1 w2 h2 hw hh
    simp [testCodec]
    omega
  refine ⟨hmc, by decide, by decide, ?_⟩
  exact fullpage_size_monotone_in_resolution testCodec testDoc 50 60 110 hmc
    (by decide) (by decide)
